import Mathlib

/-!
Shallow embedding of `src/signaling_server/server.py` (class `SignalingServer`).

The server keeps one shared registry `self.rooms : Dict[str, Set[websocket]]`
and runs one `handle_client` loop per connection.  The loop holds a local
variable `room` (initially `None`), parses each inbound frame and dispatches
on its `action` field; the `finally` block performs disconnect cleanup.

Modelling choices:
* a connection (`websocket`) is an opaque identity, modelled as `Nat`;
* the Python dict is modelled as an insertion-ordered association list
  `List (String × List Conn)`; a Python set of connections is a duplicate-free
  `List Conn` (addition appends when absent, discard filters out);
* a Python value that may be `None` is an `Option`; `data.get("room")` yields
  `Option String`, `data.get("payload")` yields `Option Json`;
* Python truthiness (`not room`, `not payload`) is modelled explicitly:
  `none`, `""`, `0`, `False`, empty list / object are falsy;
* each loop iteration is the pure function `handleMessage`, returning the new
  local `room`, the new registry, the ordered list of send calls made during
  that iteration, and whether the loop continues or breaks (`leave` ends the
  loop with `break`);
* the `finally` block is the function `cleanup`; its sends are wrapped in
  `try/except: pass`, so each attempt is recorded together with a Bool that
  says whether the peer's channel accepted it (`broken` lists the connections
  whose `send` raises); a failed attempt never stops the remaining attempts
  nor undoes the registry mutation, exactly as in the source.
-/

/-- A connection handle; only identity comparison is used by the server. -/
abbrev Conn := Nat

/-- A JSON value, as far as the server observes it (it never inspects payload
contents beyond truthiness). -/
inductive Json where
  | null
  | bool (b : Bool)
  | num (n : Int)
  | str (s : String)
  | arr (elems : List Json)
  | obj (fields : List (String × Json))

/-- Python truthiness of a JSON value: `if not payload:` in the source. -/
def Json.truthy : Json → Bool
  | .null => false
  | .bool b => b
  | .num n => n != 0
  | .str s => s != ""
  | .arr elems => !elems.isEmpty
  | .obj fields => !fields.isEmpty

/-- Python truthiness of an optional string: `if not room:` in the source
(`None` and `""` are falsy). -/
def truthyStr : Option String → Bool
  | none => false
  | some s => s != ""

/-- Python truthiness of `data.get("payload")`: `if not payload:` in the
source (`None` and every falsy JSON value are rejected). -/
def truthyJson : Option Json → Bool
  | none => false
  | some p => p.truthy

/-- Inbound envelope, after `json.loads`: dispatch is on `data.get("action")`.
`join` carries `data.get("room")`, `relay` carries `data.get("payload")`;
an unrecognized action falls through every branch and does nothing. -/
inductive ClientMsg where
  | join (roomField : Option String)
  | relay (payloadField : Option Json)
  | leave
  | other

/-- Outbound envelope, as built by the `json.dumps` calls in the source. -/
inductive ServerMsg where
  | error (err : String)
  | joined (room : String) (peers : Nat)
  | peerJoined (room : String)
  | relayed (room : String) (payload : Json)
  | peerLeft (room : String)

/-- The registry `self.rooms`: room id → member set. -/
abbrev Registry := List (String × List Conn)

/-- `room in self.rooms` / `self.rooms[room]`. -/
def rlookup (r : String) : Registry → Option (List Conn)
  | [] => none
  | (k, ms) :: rest => if k = r then some ms else rlookup r rest

/-- `self.rooms[room] = ms` for an existing key (rewrites the first match). -/
def rupdate (r : String) (ms : List Conn) : Registry → Registry
  | [] => []
  | (k, old) :: rest => if k = r then (k, ms) :: rest else (k, old) :: rupdate r ms rest

/-- `del self.rooms[room]`. -/
def rerase (r : String) : Registry → Registry
  | [] => []
  | (k, ms) :: rest => if k = r then rest else (k, ms) :: rerase r rest

/-- `if room not in self.rooms: self.rooms[room] = set()`. -/
def rinsertEmpty (r : String) (rooms : Registry) : Registry :=
  if (rlookup r rooms).isSome then rooms else rooms ++ [(r, [])]

/-- `self.rooms[room].add(websocket)` (set semantics: no duplicate). -/
def setAdd (c : Conn) (ms : List Conn) : List Conn :=
  if c ∈ ms then ms else ms ++ [c]

/-- `self.rooms[room].discard(websocket)` (set semantics: absent is a no-op). -/
def setDiscard (c : Conn) (ms : List Conn) : List Conn :=
  ms.filter (· != c)

/-- Whether the loop continues (`continue` / fall-through) or ends (`break`). -/
inductive Outcome where
  | cont
  | brk

/-- Result of one loop iteration of `handle_client`. -/
structure StepResult where
  hr : Option String
  rooms : Registry
  sends : List (Conn × ServerMsg)
  out : Outcome

/-- One iteration of the `async for message in websocket` loop in
`SignalingServer.handle_client`, for connection `c`, current local variable
`room = hr`, current registry `rooms`, and inbound envelope `msg`.

Mirrors the source line by line:
* `join`: first `room = data.get("room")` (the local is overwritten even when
  validation then fails); missing-room error; create the room if absent;
  capacity check `len >= 2`; add, reply `joined` with the resulting count,
  then notify every other member with `peer_joined`;
* `relay`: `if not room or room not in self.rooms` error; `if not payload`
  error; otherwise send `relayed` to every member of the room except `c`;
* `leave`: `if room and room in self.rooms`: discard `c`, delete the room if
  now empty, otherwise send `peer_left` to every remaining member; `break`;
* any other action: fall through, loop continues. -/
def handleMessage (c : Conn) (hr : Option String) (rooms : Registry) :
    ClientMsg → StepResult
  | .join rf =>
    if truthyStr rf then
      let r := rf.getD ""
      let rooms1 := rinsertEmpty r rooms
      let ms := (rlookup r rooms1).getD []
      if 2 ≤ ms.length then
        ⟨rf, rooms1, [(c, .error "Room is full (max 2 peers)")], .cont⟩
      else
        let ms' := setAdd c ms
        ⟨rf, rupdate r ms' rooms1,
          (c, .joined r ms'.length) ::
            (ms'.filter (· != c)).map (fun p => (p, .peerJoined r)),
          .cont⟩
    else
      ⟨rf, rooms, [(c, .error "Missing room")], .cont⟩
  | .relay pf =>
    if truthyStr hr then
      let r := hr.getD ""
      match rlookup r rooms with
      | none => ⟨hr, rooms, [(c, .error "Not in a room")], .cont⟩
      | some ms =>
        if truthyJson pf then
          ⟨hr, rooms,
            (ms.filter (· != c)).map (fun q => (q, .relayed r (pf.getD .null))), .cont⟩
        else
          ⟨hr, rooms, [(c, .error "Missing payload")], .cont⟩
    else
      ⟨hr, rooms, [(c, .error "Not in a room")], .cont⟩
  | .leave =>
    if truthyStr hr then
      let r := hr.getD ""
      match rlookup r rooms with
      | none => ⟨hr, rooms, [], .brk⟩
      | some ms =>
        let ms' := setDiscard c ms
        if ms'.length = 0 then
          ⟨hr, rerase r rooms, [], .brk⟩
        else
          ⟨hr, rupdate r ms' rooms, ms'.map (fun q => (q, .peerLeft r)), .brk⟩
    else
      ⟨hr, rooms, [], .brk⟩
  | .other => ⟨hr, rooms, [], .cont⟩

/-- The `finally` block of `handle_client`: disconnect cleanup for connection
`c` whose local variable `room` holds `hr`.  Same registry logic as the
`leave` branch; each `peer_left` send is wrapped in `try/except: pass`, so
the returned attempts carry a Bool telling whether the peer's channel
accepted the send (`false` when the peer is in `broken`), and neither the
registry mutation nor the remaining attempts depend on any failure. -/
def cleanup (broken : List Conn) (c : Conn) (hr : Option String)
    (rooms : Registry) : Registry × List (Conn × ServerMsg × Bool) :=
  if truthyStr hr then
    let r := hr.getD ""
    match rlookup r rooms with
    | none => (rooms, [])
    | some ms =>
      let ms' := setDiscard c ms
      if ms'.length = 0 then
        (rerase r rooms, [])
      else
        (rupdate r ms' rooms, ms'.map (fun q => (q, .peerLeft r, !broken.contains q)))
  else
    (rooms, [])

/-- The key list of the registry, in insertion order. -/
def rkeys (rooms : Registry) : List String :=
  rooms.map Prod.fst

/-! ### Registry lemmas -/

theorem rlookup_mem : ∀ {rooms : Registry} {r : String} {ms : List Conn},
    rlookup r rooms = some ms → (r, ms) ∈ rooms
  | [], _, _, h => by simp [rlookup] at h
  | (k, old) :: rest, r, ms, h => by
      by_cases hk : k = r
      · subst hk
        simp [rlookup] at h
        subst h
        exact List.mem_cons_self _ _
      · simp [rlookup, hk] at h
        exact List.mem_cons_of_mem _ (rlookup_mem h)

theorem rlookup_eq_none : ∀ {rooms : Registry} {r : String},
    rlookup r rooms = none ↔ r ∉ rkeys rooms
  | [], r => by simp [rlookup, rkeys]
  | (k, old) :: rest, r => by
      by_cases hk : k = r
      · subst hk
        constructor
        · intro h
          simp [rlookup] at h
        · intro h
          exact absurd (by simp [rkeys]) h
      · constructor
        · intro h hmem
          simp only [rlookup, if_neg hk] at h
          simp only [rkeys, List.map_cons, List.mem_cons] at hmem
          rcases hmem with h1 | h2
          · exact hk h1.symm
          · exact (rlookup_eq_none.mp h) h2
        · intro h
          simp only [rlookup, if_neg hk]
          refine rlookup_eq_none.mpr fun h2 => h ?_
          simp only [rkeys, List.map_cons, List.mem_cons]
          exact Or.inr h2

theorem mem_rupdate : ∀ {rooms : Registry} {r : String} {ms : List Conn} {p},
    p ∈ rupdate r ms rooms → p ∈ rooms ∨ p = (r, ms)
  | [], _, _, _, h => by simp [rupdate] at h
  | (k, old) :: rest, r, ms, p, h => by
      by_cases hk : k = r
      · subst hk
        simp [rupdate] at h
        rcases h with h | h
        · exact Or.inr h
        · exact Or.inl (List.mem_cons_of_mem _ h)
      · simp [rupdate, hk] at h
        rcases h with h | h
        · exact Or.inl (by simp [h])
        · rcases mem_rupdate h with h' | h'
          · exact Or.inl (List.mem_cons_of_mem _ h')
          · exact Or.inr h'

theorem rkeys_rupdate : ∀ (rooms : Registry) (r : String) (ms : List Conn),
    rkeys (rupdate r ms rooms) = rkeys rooms
  | [], _, _ => rfl
  | (k, old) :: rest, r, ms => by
      by_cases hk : k = r
      · subst hk
        simp [rupdate, rkeys]
      · simp [rupdate, rkeys, hk]
        exact rkeys_rupdate rest r ms

theorem mem_rerase : ∀ {rooms : Registry} {r : String} {p},
    p ∈ rerase r rooms → p ∈ rooms
  | [], _, _, h => by simp [rerase] at h
  | (k, old) :: rest, r, p, h => by
      by_cases hk : k = r
      · subst hk
        simp [rerase] at h
        exact List.mem_cons_of_mem _ h
      · simp [rerase, hk] at h
        rcases h with h | h
        · exact by simp [h]
        · exact List.mem_cons_of_mem _ (mem_rerase h)

theorem rkeys_rerase_sublist : ∀ (rooms : Registry) (r : String),
    (rkeys (rerase r rooms)).Sublist (rkeys rooms)
  | [], _ => List.Sublist.refl _
  | (k, old) :: rest, r => by
      by_cases hk : k = r
      · subst hk
        simp [rerase, rkeys]
      · simp [rerase, rkeys, hk]
        exact rkeys_rerase_sublist rest r

theorem rlookup_append_of_none : ∀ {rooms : Registry} {r : String} (l : Registry),
    rlookup r rooms = none → rlookup r (rooms ++ l) = rlookup r l
  | [], _, l, _ => rfl
  | (k, old) :: rest, r, l, h => by
      by_cases hk : k = r
      · subst hk
        simp [rlookup] at h
      · simp [rlookup, hk] at h ⊢
        exact rlookup_append_of_none l h

theorem rlookup_rupdate_self : ∀ {rooms : Registry} {r : String} {ms : List Conn}
    (ms' : List Conn), rlookup r rooms = some ms →
    rlookup r (rupdate r ms' rooms) = some ms'
  | [], _, _, _, h => by simp [rlookup] at h
  | (k, old) :: rest, r, ms, ms', h => by
      by_cases hk : k = r
      · subst hk
        simp [rupdate, rlookup]
      · simp [rlookup, rupdate, hk] at h ⊢
        exact rlookup_rupdate_self ms' h

theorem rupdate_lookup_self : ∀ {rooms : Registry} {r : String} {ms : List Conn},
    rlookup r rooms = some ms → rupdate r ms rooms = rooms
  | [], _, _, h => by simp [rlookup] at h
  | (k, old) :: rest, r, ms, h => by
      by_cases hk : k = r
      · subst hk
        simp [rlookup] at h
        simp [rupdate, h]
      · simp [rlookup, hk] at h
        simp [rupdate, hk]
        exact rupdate_lookup_self h

theorem rlookup_rerase_self : ∀ {rooms : Registry} {r : String},
    (rkeys rooms).Nodup → rlookup r (rerase r rooms) = none
  | [], _, _ => rfl
  | (k, old) :: rest, r, h => by
      by_cases hk : k = r
      · subst hk
        simp [rerase]
        exact rlookup_eq_none.mpr (by simpa [rkeys] using (List.nodup_cons.mp h).1)
      · simp [rerase, rlookup, hk]
        exact rlookup_rerase_self (List.nodup_cons.mp h).2

theorem rupdate_append_of_none : ∀ {rooms : Registry} {r : String}
    (ms0 ms' : List Conn), rlookup r rooms = none →
    rupdate r ms' (rooms ++ [(r, ms0)]) = rooms ++ [(r, ms')]
  | [], r, ms0, ms', _ => by simp [rupdate]
  | (k, old) :: rest, r, ms0, ms', h => by
      by_cases hk : k = r
      · subst hk
        simp [rlookup] at h
      · simp [rlookup, hk] at h
        simp [rupdate, hk]
        exact rupdate_append_of_none ms0 ms' h

/-! ### Member-set lemmas -/

theorem setAdd_ne_nil (c : Conn) (ms : List Conn) : setAdd c ms ≠ [] := by
  unfold setAdd
  split
  · next h => exact List.ne_nil_of_mem h
  · simp

theorem setAdd_nodup (c : Conn) {ms : List Conn} (h : ms.Nodup) :
    (setAdd c ms).Nodup := by
  unfold setAdd
  split
  · exact h
  · next hc => simpa [List.nodup_append] using ⟨h, hc⟩

theorem setAdd_length_le (c : Conn) {ms : List Conn} (h : ms.length ≤ 1) :
    (setAdd c ms).length ≤ 2 := by
  unfold setAdd
  split
  · omega
  · simp
    omega

theorem setDiscard_nodup (c : Conn) {ms : List Conn} (h : ms.Nodup) :
    (setDiscard c ms).Nodup :=
  h.filter _

theorem setDiscard_length_le (c : Conn) (ms : List Conn) :
    (setDiscard c ms).length ≤ ms.length :=
  List.length_filter_le _ _

theorem setDiscard_of_not_mem {c : Conn} {ms : List Conn} (h : c ∉ ms) :
    setDiscard c ms = ms := by
  unfold setDiscard
  exact List.filter_eq_self.mpr fun a ha => by
    simp
    exact fun e => h (e ▸ ha)

/-! ### Branch characterizations of `handleMessage` and `cleanup`

Each lemma describes exactly one control path of `handle_client`. -/

theorem join_missing_room {c : Conn} {hr rf : Option String} {rooms : Registry}
    (h : truthyStr rf = false) :
    handleMessage c hr rooms (.join rf) =
      ⟨rf, rooms, [(c, .error "Missing room")], .cont⟩ := by
  simp [handleMessage, h]

theorem join_full {c : Conn} {hr : Option String} {rooms : Registry} {r : String}
    {ms : List Conn} (hr0 : r ≠ "") (hlook : rlookup r rooms = some ms)
    (hfull : 2 ≤ ms.length) :
    handleMessage c hr rooms (.join (some r)) =
      ⟨some r, rooms, [(c, .error "Room is full (max 2 peers)")], .cont⟩ := by
  simp [handleMessage, truthyStr, hr0, rinsertEmpty, hlook, hfull]

theorem join_ok_fresh {c : Conn} {hr : Option String} {rooms : Registry} {r : String}
    (hr0 : r ≠ "") (hlook : rlookup r rooms = none) :
    handleMessage c hr rooms (.join (some r)) =
      ⟨some r, rooms ++ [(r, [c])], [(c, .joined r 1)], .cont⟩ := by
  have h1 : rinsertEmpty r rooms = rooms ++ [(r, [])] := by
    simp [rinsertEmpty, hlook]
  have h2 : rlookup r (rooms ++ [(r, [])]) = some [] := by
    rw [rlookup_append_of_none _ hlook]
    simp [rlookup]
  have h3 := rupdate_append_of_none [] [c] hlook
  simp [handleMessage, truthyStr, hr0, h1, h2, setAdd, h3]

theorem join_ok_existing {c : Conn} {hr : Option String} {rooms : Registry}
    {r : String} {ms : List Conn} (hr0 : r ≠ "") (hlook : rlookup r rooms = some ms)
    (hcap : ms.length < 2) :
    handleMessage c hr rooms (.join (some r)) =
      ⟨some r, rupdate r (setAdd c ms) rooms,
        (c, .joined r (setAdd c ms).length) ::
          ((setAdd c ms).filter (· != c)).map (fun p => (p, .peerJoined r)),
        .cont⟩ := by
  have hnot : ¬ 2 ≤ ms.length := by omega
  simp [handleMessage, truthyStr, hr0, rinsertEmpty, hlook, hnot]

theorem relay_unset {c : Conn} {hr : Option String} {rooms : Registry}
    {pf : Option Json} (h : truthyStr hr = false) :
    handleMessage c hr rooms (.relay pf) =
      ⟨hr, rooms, [(c, .error "Not in a room")], .cont⟩ := by
  simp [handleMessage, h]

theorem relay_no_room {c : Conn} {rooms : Registry} {r : String} {pf : Option Json}
    (hr0 : r ≠ "") (hlook : rlookup r rooms = none) :
    handleMessage c (some r) rooms (.relay pf) =
      ⟨some r, rooms, [(c, .error "Not in a room")], .cont⟩ := by
  simp [handleMessage, truthyStr, hr0, hlook]

theorem relay_missing_payload {c : Conn} {rooms : Registry} {r : String}
    {ms : List Conn} {pf : Option Json} (hr0 : r ≠ "")
    (hlook : rlookup r rooms = some ms) (hp : truthyJson pf = false) :
    handleMessage c (some r) rooms (.relay pf) =
      ⟨some r, rooms, [(c, .error "Missing payload")], .cont⟩ := by
  simp [handleMessage, truthyStr, hr0, hlook, hp]

theorem relay_ok {c : Conn} {rooms : Registry} {r : String} {ms : List Conn}
    {pf : Option Json} (hr0 : r ≠ "") (hlook : rlookup r rooms = some ms)
    (hp : truthyJson pf = true) :
    handleMessage c (some r) rooms (.relay pf) =
      ⟨some r, rooms,
        (ms.filter (· != c)).map (fun q => (q, .relayed r (pf.getD .null))),
        .cont⟩ := by
  simp [handleMessage, truthyStr, hr0, hlook, hp]

theorem leave_unset {c : Conn} {hr : Option String} {rooms : Registry}
    (h : truthyStr hr = false) :
    handleMessage c hr rooms .leave = ⟨hr, rooms, [], .brk⟩ := by
  simp [handleMessage, h]

theorem leave_no_room {c : Conn} {rooms : Registry} {r : String} (hr0 : r ≠ "")
    (hlook : rlookup r rooms = none) :
    handleMessage c (some r) rooms .leave = ⟨some r, rooms, [], .brk⟩ := by
  simp [handleMessage, truthyStr, hr0, hlook]

theorem leave_empties {c : Conn} {rooms : Registry} {r : String} {ms : List Conn}
    (hr0 : r ≠ "") (hlook : rlookup r rooms = some ms)
    (hempty : setDiscard c ms = []) :
    handleMessage c (some r) rooms .leave = ⟨some r, rerase r rooms, [], .brk⟩ := by
  simp [handleMessage, truthyStr, hr0, hlook, hempty]

theorem leave_notifies {c : Conn} {rooms : Registry} {r : String} {ms : List Conn}
    (hr0 : r ≠ "") (hlook : rlookup r rooms = some ms)
    (hne : setDiscard c ms ≠ []) :
    handleMessage c (some r) rooms .leave =
      ⟨some r, rupdate r (setDiscard c ms) rooms,
        (setDiscard c ms).map (fun q => (q, .peerLeft r)), .brk⟩ := by
  have hlen : ¬ (setDiscard c ms).length = 0 := by
    simpa [List.length_eq_zero] using hne
  simp [handleMessage, truthyStr, hr0, hlook, hlen]

theorem cleanup_unset {broken : List Conn} {c : Conn} {hr : Option String}
    {rooms : Registry} (h : truthyStr hr = false) :
    cleanup broken c hr rooms = (rooms, []) := by
  simp [cleanup, h]

theorem cleanup_no_room {broken : List Conn} {c : Conn} {rooms : Registry}
    {r : String} (hr0 : r ≠ "") (hlook : rlookup r rooms = none) :
    cleanup broken c (some r) rooms = (rooms, []) := by
  simp [cleanup, truthyStr, hr0, hlook]

theorem cleanup_empties {broken : List Conn} {c : Conn} {rooms : Registry}
    {r : String} {ms : List Conn} (hr0 : r ≠ "")
    (hlook : rlookup r rooms = some ms) (hempty : setDiscard c ms = []) :
    cleanup broken c (some r) rooms = (rerase r rooms, []) := by
  simp [cleanup, truthyStr, hr0, hlook, hempty]

theorem cleanup_notifies {broken : List Conn} {c : Conn} {rooms : Registry}
    {r : String} {ms : List Conn} (hr0 : r ≠ "")
    (hlook : rlookup r rooms = some ms) (hne : setDiscard c ms ≠ []) :
    cleanup broken c (some r) rooms =
      (rupdate r (setDiscard c ms) rooms,
        (setDiscard c ms).map (fun q => (q, .peerLeft r, !broken.contains q))) := by
  have hlen : ¬ (setDiscard c ms).length = 0 := by
    simpa [List.length_eq_zero] using hne
  simp [cleanup, truthyStr, hr0, hlook, hlen]

/-! ### The registry invariant and its preservation -/

/-- A well-formed registry entry: non-empty room id, and a non-empty,
duplicate-free member set of at most 2 connections. -/
def RoomOk (p : String × List Conn) : Prop :=
  p.1 ≠ "" ∧ p.2 ≠ [] ∧ p.2.Nodup ∧ p.2.length ≤ 2

instance : DecidablePred RoomOk := fun p =>
  inferInstanceAs (Decidable (p.1 ≠ "" ∧ p.2 ≠ [] ∧ p.2.Nodup ∧ p.2.length ≤ 2))

/-- The registry invariant: distinct room keys, every entry well-formed. -/
def RegOk (rooms : Registry) : Prop :=
  (rkeys rooms).Nodup ∧ ∀ p ∈ rooms, RoomOk p

instance : DecidablePred RegOk := fun rooms =>
  inferInstanceAs (Decidable ((rkeys rooms).Nodup ∧ ∀ p ∈ rooms, RoomOk p))

theorem regOk_rupdate {rooms : Registry} {r : String} {ms : List Conn}
    (h : RegOk rooms) (hr0 : r ≠ "") (hne : ms ≠ []) (hnd : ms.Nodup)
    (hlen : ms.length ≤ 2) : RegOk (rupdate r ms rooms) := by
  constructor
  · rw [rkeys_rupdate]
    exact h.1
  · intro p hp
    rcases mem_rupdate hp with hp' | hp'
    · exact h.2 p hp'
    · subst hp'
      exact ⟨hr0, hne, hnd, hlen⟩

theorem regOk_rerase {rooms : Registry} (r : String) (h : RegOk rooms) :
    RegOk (rerase r rooms) :=
  ⟨(rkeys_rerase_sublist rooms r).nodup h.1, fun p hp => h.2 p (mem_rerase hp)⟩

theorem regOk_append_fresh {rooms : Registry} {r : String} (c : Conn)
    (h : RegOk rooms) (hr0 : r ≠ "") (hnew : rlookup r rooms = none) :
    RegOk (rooms ++ [(r, [c])]) := by
  have hnot : r ∉ rkeys rooms := rlookup_eq_none.mp hnew
  constructor
  · simp only [rkeys, List.map_append, List.map_cons, List.map_nil]
    rw [List.nodup_append]
    refine ⟨h.1, List.nodup_singleton r, ?_⟩
    intro a ha hb
    simp at hb
    subst hb
    exact hnot ha
  · intro p hp
    rcases List.mem_append.mp hp with hp' | hp'
    · exact h.2 p hp'
    · simp at hp'
      subst hp'
      exact ⟨hr0, by simp, List.nodup_singleton c, by simp⟩

theorem regOk_handleMessage (c : Conn) (hr : Option String) {rooms : Registry}
    (h : RegOk rooms) (m : ClientMsg) : RegOk (handleMessage c hr rooms m).rooms := by
  cases m with
  | join rf =>
    cases rf with
    | none =>
      rw [join_missing_room (show truthyStr none = false from rfl)]
      exact h
    | some r =>
      by_cases hr0 : r = ""
      · rw [join_missing_room (by simp [truthyStr, hr0])]
        exact h
      · cases hlook : rlookup r rooms with
        | none =>
          rw [join_ok_fresh hr0 hlook]
          exact regOk_append_fresh c h hr0 hlook
        | some ms =>
          by_cases hcap : 2 ≤ ms.length
          · rw [join_full hr0 hlook hcap]
            exact h
          · rw [join_ok_existing hr0 hlook (by omega)]
            have hms := h.2 (r, ms) (rlookup_mem hlook)
            exact regOk_rupdate h hr0 (setAdd_ne_nil c ms) (setAdd_nodup c hms.2.2.1)
              (setAdd_length_le c (by omega))
  | relay pf =>
    cases hhr : truthyStr hr with
    | false =>
      rw [relay_unset hhr]
      exact h
    | true =>
      cases hr with
      | none => simp [truthyStr] at hhr
      | some r =>
        have hr0 : r ≠ "" := by simpa [truthyStr] using hhr
        cases hlook : rlookup r rooms with
        | none =>
          rw [relay_no_room hr0 hlook]
          exact h
        | some ms =>
          cases hp : truthyJson pf with
          | false =>
            rw [relay_missing_payload hr0 hlook hp]
            exact h
          | true =>
            rw [relay_ok hr0 hlook hp]
            exact h
  | leave =>
    cases hhr : truthyStr hr with
    | false =>
      rw [leave_unset hhr]
      exact h
    | true =>
      cases hr with
      | none => simp [truthyStr] at hhr
      | some r =>
        have hr0 : r ≠ "" := by simpa [truthyStr] using hhr
        cases hlook : rlookup r rooms with
        | none =>
          rw [leave_no_room hr0 hlook]
          exact h
        | some ms =>
          by_cases hempty : setDiscard c ms = []
          · rw [leave_empties hr0 hlook hempty]
            exact regOk_rerase r h
          · rw [leave_notifies hr0 hlook hempty]
            have hms := h.2 (r, ms) (rlookup_mem hlook)
            exact regOk_rupdate h hr0 hempty (setDiscard_nodup c hms.2.2.1)
              (le_trans (setDiscard_length_le c ms) hms.2.2.2)
  | other => exact h

theorem regOk_cleanup (broken : List Conn) (c : Conn) (hr : Option String)
    {rooms : Registry} (h : RegOk rooms) : RegOk (cleanup broken c hr rooms).1 := by
  cases hhr : truthyStr hr with
  | false =>
    rw [cleanup_unset hhr]
    exact h
  | true =>
    cases hr with
    | none => simp [truthyStr] at hhr
    | some r =>
      have hr0 : r ≠ "" := by simpa [truthyStr] using hhr
      cases hlook : rlookup r rooms with
      | none =>
        rw [cleanup_no_room hr0 hlook]
        exact h
      | some ms =>
        by_cases hempty : setDiscard c ms = []
        · rw [cleanup_empties hr0 hlook hempty]
          exact regOk_rerase r h
        · rw [cleanup_notifies hr0 hlook hempty]
          have hms := h.2 (r, ms) (rlookup_mem hlook)
          exact regOk_rupdate h hr0 hempty (setDiscard_nodup c hms.2.2.1)
            (le_trans (setDiscard_length_le c ms) hms.2.2.2)

/-- Registry states reachable from server start (`self.rooms = {}`): closed
under one loop iteration of any handler (with any local `room` value) and
under disconnect cleanup of any handler. -/
inductive Reach : Registry → Prop where
  | init : Reach []
  | step (c : Conn) (hr : Option String) (m : ClientMsg) {rooms : Registry} :
      Reach rooms → Reach (handleMessage c hr rooms m).rooms
  | disc (broken : List Conn) (c : Conn) (hr : Option String) {rooms : Registry} :
      Reach rooms → Reach (cleanup broken c hr rooms).1

theorem reach_regOk {rooms : Registry} (h : Reach rooms) : RegOk rooms := by
  induction h with
  | init => exact ⟨List.nodup_nil, by simp⟩
  | step c hr m _ ih => exact regOk_handleMessage c hr ih m
  | disc broken c hr _ ih => exact regOk_cleanup broken c hr ih

/-! ### Further shared lemmas -/

theorem length_filter_ne_of_nodup : ∀ {ms : List Conn} {c : Conn}, ms.Nodup →
    c ∈ ms → (ms.filter (· != c)).length = ms.length - 1
  | [], c, _, hc => by cases hc
  | a :: t, c, hnd, hc => by
      have hat : a ∉ t := (List.nodup_cons.mp hnd).1
      by_cases hac : a = c
      · subst hac
        have hft : t.filter (· != a) = t := by
          simpa [setDiscard] using setDiscard_of_not_mem hat
        simp [List.filter_cons, hft]
      · have h : c ∈ t := by
          rcases List.mem_cons.mp hc with h | h
          · exact absurd h.symm hac
          · exact h
        have hpos : 0 < t.length := List.length_pos_of_mem h
        have ih := length_filter_ne_of_nodup (List.nodup_cons.mp hnd).2 h
        simp [List.filter_cons, hac, ih]
        omega

theorem handleMessage_join_hr (c : Conn) (hr : Option String) (rooms : Registry)
    (rf : Option String) : (handleMessage c hr rooms (.join rf)).hr = rf := by
  cases rf with
  | none => rw [join_missing_room (show truthyStr none = false from rfl)]
  | some r =>
    by_cases hr0 : r = ""
    · rw [join_missing_room (by simp [truthyStr, hr0])]
    · cases hlook : rlookup r rooms with
      | none => rw [join_ok_fresh hr0 hlook]
      | some ms =>
        by_cases hcap : 2 ≤ ms.length
        · rw [join_full hr0 hlook hcap]
        · rw [join_ok_existing hr0 hlook (by omega)]

theorem handleMessage_relay_hr (c : Conn) (hr : Option String) (rooms : Registry)
    (pf : Option Json) : (handleMessage c hr rooms (.relay pf)).hr = hr := by
  cases hhr : truthyStr hr with
  | false => rw [relay_unset hhr]
  | true =>
    cases hr with
    | none => simp [truthyStr] at hhr
    | some r =>
      have hr0 : r ≠ "" := by simpa [truthyStr] using hhr
      cases hlook : rlookup r rooms with
      | none => rw [relay_no_room hr0 hlook]
      | some ms =>
        cases hp : truthyJson pf with
        | false => rw [relay_missing_payload hr0 hlook hp]
        | true => rw [relay_ok hr0 hlook hp]

theorem handleMessage_leave_hr (c : Conn) (hr : Option String) (rooms : Registry) :
    (handleMessage c hr rooms .leave).hr = hr := by
  cases hhr : truthyStr hr with
  | false => rw [leave_unset hhr]
  | true =>
    cases hr with
    | none => simp [truthyStr] at hhr
    | some r =>
      have hr0 : r ≠ "" := by simpa [truthyStr] using hhr
      cases hlook : rlookup r rooms with
      | none => rw [leave_no_room hr0 hlook]
      | some ms =>
        by_cases hempty : setDiscard c ms = []
        · rw [leave_empties hr0 hlook hempty]
        · rw [leave_notifies hr0 hlook hempty]

/-! ### Claims -/

/-- C1: in every reachable registry state, every room's member set has at
most 2 connections; and a join for a room that already has 2 members replies
with exactly the RoomFull error and leaves the registry (in particular that
room's member set) unchanged — the joining connection is not added. -/
theorem C1_capacity_invariant_and_room_full :
    (∀ rooms : Registry, Reach rooms → ∀ p ∈ rooms, p.2.length ≤ 2) ∧
    (∀ (c : Conn) (hr : Option String) (rooms : Registry) (r : String)
        (ms : List Conn), r ≠ "" → rlookup r rooms = some ms → ms.length = 2 →
      (handleMessage c hr rooms (.join (some r))).rooms = rooms ∧
      (handleMessage c hr rooms (.join (some r))).sends =
        [(c, .error "Room is full (max 2 peers)")]) := by
  constructor
  · intro rooms hreach p hp
    exact ((reach_regOk hreach).2 p hp).2.2.2
  · intro c hr rooms r ms hr0 hlook hlen
    rw [join_full hr0 hlook (by omega)]
    exact ⟨rfl, rfl⟩

/-- Witness for C1: the registry reached by 0 and 1 joining "r1" satisfies
the capacity bound, and 2's join of the full "r1" is rejected unchanged. -/
theorem C1_capacity_invariant_and_room_full_witness :
    (∀ p ∈ ([("r1", [0, 1])] : Registry), p.2.length ≤ 2) ∧
    (handleMessage 2 none [("r1", [0, 1])] (.join (some "r1"))).rooms =
      [("r1", [0, 1])] ∧
    (handleMessage 2 none [("r1", [0, 1])] (.join (some "r1"))).sends =
      [(2, .error "Room is full (max 2 peers)")] := by
  have h := C1_capacity_invariant_and_room_full
  have hreach : Reach [("r1", [0, 1])] := by
    have h1 := Reach.step 0 none (.join (some "r1")) Reach.init
    have h2 := Reach.step 1 none (.join (some "r1")) h1
    exact h2
  refine ⟨h.1 _ hreach, ?_, ?_⟩
  · exact (h.2 2 none [("r1", [0, 1])] "r1" [0, 1] (by decide) rfl rfl).1
  · exact (h.2 2 none [("r1", [0, 1])] "r1" [0, 1] (by decide) rfl rfl).2

/-- C2: in every reachable registry state, a present room key maps to a
non-empty member set; a successful join of an absent room creates the entry
together with its first member; and removing the last member — by explicit
leave or by disconnect cleanup — deletes the entry at once. -/
theorem C2_room_present_iff_nonempty :
    (∀ rooms : Registry, Reach rooms → ∀ p ∈ rooms, p.2 ≠ []) ∧
    (∀ (c : Conn) (hr : Option String) (rooms : Registry) (r : String),
      r ≠ "" → rlookup r rooms = none →
      rlookup r (handleMessage c hr rooms (.join (some r))).rooms = some [c]) ∧
    (∀ (c : Conn) (rooms : Registry) (r : String), RegOk rooms → r ≠ "" →
      rlookup r rooms = some [c] →
      rlookup r (handleMessage c (some r) rooms .leave).rooms = none) ∧
    (∀ (broken : List Conn) (c : Conn) (rooms : Registry) (r : String),
      RegOk rooms → r ≠ "" → rlookup r rooms = some [c] →
      rlookup r (cleanup broken c (some r) rooms).1 = none) := by
  refine ⟨?_, ?_, ?_, ?_⟩
  · intro rooms hreach p hp
    exact ((reach_regOk hreach).2 p hp).2.1
  · intro c hr rooms r hr0 hlook
    rw [join_ok_fresh hr0 hlook]
    show rlookup r (rooms ++ [(r, [c])]) = some [c]
    rw [rlookup_append_of_none _ hlook]
    simp [rlookup]
  · intro c rooms r hok hr0 hlook
    have hd : setDiscard c [c] = [] := by simp [setDiscard]
    rw [leave_empties hr0 hlook hd]
    exact rlookup_rerase_self hok.1
  · intro broken c rooms r hok hr0 hlook
    have hd : setDiscard c [c] = [] := by simp [setDiscard]
    rw [cleanup_empties hr0 hlook hd]
    exact rlookup_rerase_self hok.1

/-- Witness for C2: concrete instances of all four conjuncts, on the
reachable state where 0 alone occupies "r1". -/
theorem C2_room_present_iff_nonempty_witness :
    (∀ p ∈ ([("r1", [0])] : Registry), p.2 ≠ []) ∧
    rlookup "r1" (handleMessage 0 none [] (.join (some "r1"))).rooms = some [0] ∧
    rlookup "r1" (handleMessage 0 (some "r1") [("r1", [0])] .leave).rooms = none ∧
    rlookup "r1" (cleanup [] 0 (some "r1") [("r1", [0])]).1 = none := by
  have h := C2_room_present_iff_nonempty
  have hreach : Reach [("r1", [0])] := Reach.step 0 none (.join (some "r1")) Reach.init
  refine ⟨h.1 _ hreach, ?_, ?_, ?_⟩
  · exact h.2.1 0 none [] "r1" (by decide) rfl
  · exact h.2.2.1 0 [("r1", [0])] "r1" (by decide) (by decide) rfl
  · exact h.2.2.2 [] 0 [("r1", [0])] "r1" (by decide) (by decide) rfl

/-- C3 as stated fails on the code: after 0 and 1 share "r1" and 1 sends an
explicit leave (which removed 1 from the room and notified 0 once), the
disconnect cleanup for 1 runs with 1 already absent from the member set —
and, far from being a no-op, sends 0 a second `peer_left`. -/
theorem C3_counterexample :
    (handleMessage 1 (some "r1") [("r1", [0, 1])] .leave).rooms = [("r1", [0])] ∧
    (handleMessage 1 (some "r1") [("r1", [0, 1])] .leave).sends =
      [(0, .peerLeft "r1")] ∧
    cleanup [] 1 (some "r1") [("r1", [0])] =
      ([("r1", [0])], [(0, .peerLeft "r1", true)]) :=
  ⟨rfl, rfl, rfl⟩

/-- C3 amended: a leave — explicit branch or disconnect cleanup — for a
connection already absent from the room's member set changes no registry
state and raises no error, and is a complete no-op when the tracked room is
unset or absent from the registry; but when the tracked room still has
members, every remaining member is sent a (duplicate) `peer_left`. -/
theorem C3_leave_when_absent :
    (∀ (broken : List Conn) (c : Conn) (hr : Option String) (rooms : Registry),
      truthyStr hr = false → cleanup broken c hr rooms = (rooms, [])) ∧
    (∀ (broken : List Conn) (c : Conn) (r : String) (rooms : Registry),
      r ≠ "" → rlookup r rooms = none → cleanup broken c (some r) rooms = (rooms, [])) ∧
    (∀ (broken : List Conn) (c : Conn) (r : String) (rooms : Registry)
        (ms : List Conn), r ≠ "" → rlookup r rooms = some ms → ms ≠ [] → c ∉ ms →
      (cleanup broken c (some r) rooms).1 = rooms ∧
      (cleanup broken c (some r) rooms).2 =
        ms.map (fun q => (q, .peerLeft r, !broken.contains q))) ∧
    (∀ (c : Conn) (r : String) (rooms : Registry) (ms : List Conn),
      r ≠ "" → rlookup r rooms = some ms → ms ≠ [] → c ∉ ms →
      (handleMessage c (some r) rooms .leave).rooms = rooms ∧
      (handleMessage c (some r) rooms .leave).sends =
        ms.map (fun q => (q, .peerLeft r))) := by
  refine ⟨?_, ?_, ?_, ?_⟩
  · intro broken c hr rooms h
    exact cleanup_unset h
  · intro broken c r rooms hr0 hlook
    exact cleanup_no_room hr0 hlook
  · intro broken c r rooms ms hr0 hlook hne hc
    have hd : setDiscard c ms = ms := setDiscard_of_not_mem hc
    have hne' : setDiscard c ms ≠ [] := by
      rw [hd]
      exact hne
    rw [cleanup_notifies hr0 hlook hne']
    rw [hd]
    exact ⟨rupdate_lookup_self hlook, rfl⟩
  · intro c r rooms ms hr0 hlook hne hc
    have hd : setDiscard c ms = ms := setDiscard_of_not_mem hc
    have hne' : setDiscard c ms ≠ [] := by
      rw [hd]
      exact hne
    rw [leave_notifies hr0 hlook hne']
    rw [hd]
    exact ⟨rupdate_lookup_self hlook, rfl⟩

/-- Witness for C3 (amended): concrete instances — cleanup with no tracked
room, with a stale room id, and a second leave of 1 for "r1" = {0}. -/
theorem C3_leave_when_absent_witness :
    cleanup [] 1 none [("r1", [0])] = ([("r1", [0])], []) ∧
    cleanup [] 1 (some "gone") [("r1", [0])] = ([("r1", [0])], []) ∧
    (cleanup [] 1 (some "r1") [("r1", [0])]).1 = [("r1", [0])] ∧
    (cleanup [] 1 (some "r1") [("r1", [0])]).2 = [(0, .peerLeft "r1", true)] ∧
    (handleMessage 1 (some "r1") [("r1", [0])] .leave).rooms = [("r1", [0])] ∧
    (handleMessage 1 (some "r1") [("r1", [0])] .leave).sends = [(0, .peerLeft "r1")] := by
  have h := C3_leave_when_absent
  refine ⟨h.1 [] 1 none [("r1", [0])] rfl,
    h.2.1 [] 1 "gone" [("r1", [0])] (by decide) rfl, ?_, ?_, ?_, ?_⟩
  · exact (h.2.2.1 [] 1 "r1" [("r1", [0])] [0] (by decide) rfl (by decide) (by decide)).1
  · exact (h.2.2.1 [] 1 "r1" [("r1", [0])] [0] (by decide) rfl (by decide) (by decide)).2
  · exact (h.2.2.2 1 "r1" [("r1", [0])] [0] (by decide) rfl (by decide) (by decide)).1
  · exact (h.2.2.2 1 "r1" [("r1", [0])] [0] (by decide) rfl (by decide) (by decide)).2

/-- C4 as stated fails on the code: connection 0 joins "r1" successfully (its
tracked room becomes `some "r1"`), yet a later join envelope with no `room`
field overwrites the tracked room with `None` before validation — a later
inbound envelope does clear the handler's room association. -/
theorem C4_counterexample :
    (handleMessage 0 none [] (.join (some "r1"))).hr = some "r1" ∧
    (handleMessage 0 (some "r1") [("r1", [0])] (.join none)).hr = none :=
  ⟨rfl, rfl⟩

/-- C4 amended: the handler's tracked room changes only through join
envelopes: every join envelope — successful or not — overwrites the tracked
room with its own room field (clearing it when the field is absent), while
relay, leave and unrecognized envelopes never change it. -/
theorem C4_room_tracking :
    ∀ (c : Conn) (hr : Option String) (rooms : Registry),
      (∀ rf, (handleMessage c hr rooms (.join rf)).hr = rf) ∧
      (∀ pf, (handleMessage c hr rooms (.relay pf)).hr = hr) ∧
      (handleMessage c hr rooms .leave).hr = hr ∧
      (handleMessage c hr rooms .other).hr = hr := by
  intro c hr rooms
  exact ⟨handleMessage_join_hr c hr rooms, handleMessage_relay_hr c hr rooms,
    handleMessage_leave_hr c hr rooms, rfl⟩

/-- C5 as stated fails on the code: with "r1" full (members 0 and 1),
connection 2's join is rejected with RoomFull — yet its tracked room is now
"r1", and its next relay envelope is not answered with "Not in a room": the
payload is delivered to both members of the room 2 never joined. -/
theorem C5_counterexample :
    (handleMessage 2 none [("r1", [0, 1])] (.join (some "r1"))).sends =
      [(2, .error "Room is full (max 2 peers)")] ∧
    (handleMessage 2 none [("r1", [0, 1])] (.join (some "r1"))).hr = some "r1" ∧
    (handleMessage 2 (some "r1") [("r1", [0, 1])] (.relay (some (.str "x")))).sends =
      [(0, .relayed "r1" (.str "x")), (1, .relayed "r1" (.str "x"))] :=
  ⟨rfl, rfl, rfl⟩

/-- C5 amended: a join that fails with RoomFull leaves the registry (hence
the room's member set) unchanged but still overwrites the handler's tracked
room with the requested room id; a subsequent relay is checked only against
existence of the tracked room in the registry, so it is delivered to every
member of that room; the "Not in a room" error is replied — with no delivery
— exactly when the tracked room is unset/empty or absent from the registry. -/
theorem C5_failed_join_then_relay :
    (∀ (c : Conn) (hr : Option String) (rooms : Registry) (r : String)
        (ms : List Conn), r ≠ "" → rlookup r rooms = some ms → 2 ≤ ms.length →
      (handleMessage c hr rooms (.join (some r))).rooms = rooms ∧
      (handleMessage c hr rooms (.join (some r))).hr = some r) ∧
    (∀ (c : Conn) (rooms : Registry) (r : String) (ms : List Conn)
        (pf : Option Json), r ≠ "" → rlookup r rooms = some ms →
      truthyJson pf = true →
      (handleMessage c (some r) rooms (.relay pf)).sends =
        (ms.filter (· != c)).map (fun q => (q, .relayed r (pf.getD .null)))) ∧
    (∀ (c : Conn) (hr : Option String) (rooms : Registry) (pf : Option Json),
      truthyStr hr = false →
      handleMessage c hr rooms (.relay pf) =
        ⟨hr, rooms, [(c, .error "Not in a room")], .cont⟩) ∧
    (∀ (c : Conn) (rooms : Registry) (r : String) (pf : Option Json),
      r ≠ "" → rlookup r rooms = none →
      handleMessage c (some r) rooms (.relay pf) =
        ⟨some r, rooms, [(c, .error "Not in a room")], .cont⟩) := by
  refine ⟨?_, ?_, ?_, ?_⟩
  · intro c hr rooms r ms hr0 hlook hfull
    rw [join_full hr0 hlook hfull]
    exact ⟨rfl, rfl⟩
  · intro c rooms r ms pf hr0 hlook hp
    rw [relay_ok hr0 hlook hp]
  · intro c hr rooms pf h
    exact relay_unset h
  · intro c rooms r pf hr0 hlook
    exact relay_no_room hr0 hlook

/-- Witness for C5 (amended): the concrete RoomFull-then-relay trace, plus
concrete "Not in a room" replies. -/
theorem C5_failed_join_then_relay_witness :
    (handleMessage 2 none [("r1", [0, 1])] (.join (some "r1"))).rooms =
      [("r1", [0, 1])] ∧
    (handleMessage 2 none [("r1", [0, 1])] (.join (some "r1"))).hr = some "r1" ∧
    (handleMessage 2 (some "r1") [("r1", [0, 1])] (.relay (some (.str "x")))).sends =
      [(0, .relayed "r1" (.str "x")), (1, .relayed "r1" (.str "x"))] ∧
    handleMessage 2 none [("r1", [0, 1])] (.relay (some (.str "x"))) =
      ⟨none, [("r1", [0, 1])], [(2, .error "Not in a room")], .cont⟩ ∧
    handleMessage 2 (some "gone") [("r1", [0, 1])] (.relay (some (.str "x"))) =
      ⟨some "gone", [("r1", [0, 1])], [(2, .error "Not in a room")], .cont⟩ := by
  have h := C5_failed_join_then_relay
  refine ⟨(h.1 2 none [("r1", [0, 1])] "r1" [0, 1] (by decide) rfl (by decide)).1,
    (h.1 2 none [("r1", [0, 1])] "r1" [0, 1] (by decide) rfl (by decide)).2, ?_, ?_, ?_⟩
  · have h2 := h.2.1 2 [("r1", [0, 1])] "r1" [0, 1] (some (.str "x")) (by decide) rfl rfl
    rw [h2]
    rfl
  · exact h.2.2.1 2 none [("r1", [0, 1])] (some (.str "x")) rfl
  · exact h.2.2.2 2 [("r1", [0, 1])] "gone" (some (.str "x")) (by decide) rfl

/-- C6 as stated fails on the code: a successful relay (no error reply, the
payload delivered) in the 2-member room "r1" makes two delivery attempts,
one to each member, when the sender tracks the room without being a member
(reachable after a RoomFull-rejected join). -/
theorem C6_counterexample :
    ((handleMessage 2 (some "r1") [("r1", [0, 1])] (.relay (some (.num 7)))).sends.map
      Prod.fst) = [0, 1] ∧
    (handleMessage 2 (some "r1") [("r1", [0, 1])] (.relay (some (.num 7)))).sends.length
      = 2 ∧
    (handleMessage 2 (some "r1") [("r1", [0, 1])] (.relay (some (.num 7)))).out =
      .cont :=
  ⟨rfl, rfl, rfl⟩

/-- C6 amended: every successful relay sends the payload exactly as received
to every member of the tracked room other than the sender and never to the
sender (so the sender gets no reply), and leaves the registry unchanged;
when the sender is itself a member of the room, the 2-member cap makes this
at most one delivery attempt (a non-member sender — reachable after a failed
join — can cause two). -/
theorem C6_relay_delivery :
    ∀ (c : Conn) (rooms : Registry) (r : String) (ms : List Conn) (p : Json),
      RegOk rooms → r ≠ "" → rlookup r rooms = some ms → Json.truthy p = true →
      (handleMessage c (some r) rooms (.relay (some p))).sends =
        (ms.filter (· != c)).map (fun q => (q, .relayed r p)) ∧
      (∀ q m, (q, m) ∈ (handleMessage c (some r) rooms (.relay (some p))).sends →
        q ≠ c) ∧
      (handleMessage c (some r) rooms (.relay (some p))).rooms = rooms ∧
      (c ∈ ms →
        (handleMessage c (some r) rooms (.relay (some p))).sends.length ≤ 1) := by
  intro c rooms r ms p hok hr0 hlook hp
  have hpj : truthyJson (some p) = true := by simpa [truthyJson] using hp
  rw [relay_ok hr0 hlook hpj]
  refine ⟨rfl, ?_, rfl, ?_⟩
  · intro q m hm
    simp only [List.mem_map, List.mem_filter] at hm
    obtain ⟨q', ⟨_, hq'⟩, he⟩ := hm
    cases he
    simpa using hq'
  · intro hc
    have hms := hok.2 (r, ms) (rlookup_mem hlook)
    have hlen : ms.length ≤ 2 := hms.2.2.2
    have hnd : ms.Nodup := hms.2.2.1
    simp only [List.length_map]
    rw [length_filter_ne_of_nodup hnd hc]
    omega

/-- Witness for C6 (amended): member 0 relays the number 7 in "r1" = {0, 1};
exactly one delivery attempt, to 1, carrying the payload unchanged. -/
theorem C6_relay_delivery_witness :
    (handleMessage 0 (some "r1") [("r1", [0, 1])] (.relay (some (.num 7)))).sends =
      [(1, .relayed "r1" (.num 7))] ∧
    (handleMessage 0 (some "r1") [("r1", [0, 1])] (.relay (some (.num 7)))).rooms =
      [("r1", [0, 1])] ∧
    (handleMessage 0 (some "r1") [("r1", [0, 1])] (.relay (some (.num 7)))).sends.length
      ≤ 1 := by
  have h := C6_relay_delivery 0 [("r1", [0, 1])] "r1" [0, 1] (.num 7)
    (by constructor
        · decide
        · intro p hp
          simp at hp
          subst hp
          exact ⟨by decide, by decide, by decide, by decide⟩)
    (by decide) rfl rfl
  refine ⟨?_, h.2.2.1, ?_⟩
  · rw [h.1]
    rfl
  · rw [h.1]
    exact h.2.2.2 (by decide)

/-- C7 as stated fails on the code: connection 1 sends an explicit leave for
"r1" = {0, 1}; the leave branch notifies 0 once, then the finally-block
cleanup (which runs for the same connection with the same tracked room)
notifies 0 again — the remaining peer receives two `peer_left` envelopes,
not exactly one, though the room does end at member count 1. -/
theorem C7_counterexample :
    ((handleMessage 1 (some "r1") [("r1", [0, 1])] .leave).sends.length +
      (cleanup [] 1 (handleMessage 1 (some "r1") [("r1", [0, 1])] .leave).hr
        (handleMessage 1 (some "r1") [("r1", [0, 1])] .leave).rooms).2.length) = 2 ∧
    (handleMessage 1 (some "r1") [("r1", [0, 1])] .leave).sends =
      [(0, .peerLeft "r1")] ∧
    (cleanup [] 1 (handleMessage 1 (some "r1") [("r1", [0, 1])] .leave).hr
      (handleMessage 1 (some "r1") [("r1", [0, 1])] .leave).rooms).2 =
      [(0, .peerLeft "r1", true)] ∧
    rlookup "r1" (cleanup [] 1 (handleMessage 1 (some "r1") [("r1", [0, 1])] .leave).hr
      (handleMessage 1 (some "r1") [("r1", [0, 1])] .leave).rooms).1 = some [0] :=
  ⟨rfl, rfl, rfl, rfl⟩

/-- C7 amended: each single leave pass — the explicit leave branch or the
disconnect cleanup — deletes the room when the leaver was the last member
(no notification), and when a peer remains notifies exactly that peer once
and leaves the room at member count 1; however an explicit leave envelope is
always followed by the disconnect cleanup, which notifies the remaining peer
a second time; send failures during the cleanup notification are suppressed:
neither the resulting registry nor the attempted notifications depend on
which peers' channels are broken. -/
theorem C7_leave_and_cleanup_effects :
    (∀ (c : Conn) (rooms : Registry) (r : String) (ms : List Conn),
      RegOk rooms → r ≠ "" → rlookup r rooms = some ms → setDiscard c ms = [] →
      rlookup r (handleMessage c (some r) rooms .leave).rooms = none ∧
      (handleMessage c (some r) rooms .leave).sends = []) ∧
    (∀ (c q : Conn) (rooms : Registry) (r : String) (ms : List Conn),
      r ≠ "" → rlookup r rooms = some ms → setDiscard c ms = [q] →
      (handleMessage c (some r) rooms .leave).sends = [(q, .peerLeft r)] ∧
      rlookup r (handleMessage c (some r) rooms .leave).rooms = some [q]) ∧
    (∀ (broken : List Conn) (c : Conn) (rooms : Registry) (r : String)
        (ms : List Conn),
      RegOk rooms → r ≠ "" → rlookup r rooms = some ms → setDiscard c ms = [] →
      rlookup r (cleanup broken c (some r) rooms).1 = none ∧
      (cleanup broken c (some r) rooms).2 = []) ∧
    (∀ (broken : List Conn) (c q : Conn) (rooms : Registry) (r : String)
        (ms : List Conn),
      r ≠ "" → rlookup r rooms = some ms → setDiscard c ms = [q] →
      (cleanup broken c (some r) rooms).2 =
        [(q, .peerLeft r, !broken.contains q)] ∧
      rlookup r (cleanup broken c (some r) rooms).1 = some [q]) ∧
    (∀ (broken broken' : List Conn) (c : Conn) (hr : Option String)
        (rooms : Registry),
      (cleanup broken c hr rooms).1 = (cleanup broken' c hr rooms).1 ∧
      (cleanup broken c hr rooms).2.map (fun a => (a.1, a.2.1)) =
        (cleanup broken' c hr rooms).2.map (fun a => (a.1, a.2.1))) := by
  refine ⟨?_, ?_, ?_, ?_, ?_⟩
  · intro c rooms r ms hok hr0 hlook hempty
    rw [leave_empties hr0 hlook hempty]
    exact ⟨rlookup_rerase_self hok.1, rfl⟩
  · intro c q rooms r ms hr0 hlook hone
    have hne : setDiscard c ms ≠ [] := by
      rw [hone]
      simp
    rw [leave_notifies hr0 hlook hne]
    rw [hone]
    exact ⟨rfl, rlookup_rupdate_self _ hlook⟩
  · intro broken c rooms r ms hok hr0 hlook hempty
    rw [cleanup_empties hr0 hlook hempty]
    exact ⟨rlookup_rerase_self hok.1, rfl⟩
  · intro broken c q rooms r ms hr0 hlook hone
    have hne : setDiscard c ms ≠ [] := by
      rw [hone]
      simp
    rw [cleanup_notifies hr0 hlook hne]
    rw [hone]
    exact ⟨rfl, rlookup_rupdate_self _ hlook⟩
  · intro broken broken' c hr rooms
    cases hhr : truthyStr hr with
    | false =>
      rw [cleanup_unset hhr, cleanup_unset hhr]
      exact ⟨rfl, rfl⟩
    | true =>
      cases hr with
      | none => simp [truthyStr] at hhr
      | some r =>
        have hr0 : r ≠ "" := by simpa [truthyStr] using hhr
        cases hlook : rlookup r rooms with
        | none =>
          rw [cleanup_no_room hr0 hlook, cleanup_no_room hr0 hlook]
          exact ⟨rfl, rfl⟩
        | some ms =>
          by_cases hempty : setDiscard c ms = []
          · rw [cleanup_empties hr0 hlook hempty, cleanup_empties hr0 hlook hempty]
            exact ⟨rfl, rfl⟩
          · rw [cleanup_notifies hr0 hlook hempty, cleanup_notifies hr0 hlook hempty]
            refine ⟨rfl, ?_⟩
            simp [List.map_map]

/-- Witness for C7 (amended): sole-member leave deletes "r1"; leave with a
peer remaining notifies exactly 0 and leaves {0}; cleanup likewise, and its
registry effect and attempted notifications are the same whether or not 0's
channel is broken. -/
theorem C7_leave_and_cleanup_effects_witness :
    rlookup "r1" (handleMessage 0 (some "r1") [("r1", [0])] .leave).rooms = none ∧
    (handleMessage 1 (some "r1") [("r1", [0, 1])] .leave).sends =
      [(0, .peerLeft "r1")] ∧
    rlookup "r1" (cleanup [0] 1 (some "r1") [("r1", [0, 1])]).1 = some [0] ∧
    (cleanup [0] 1 (some "r1") [("r1", [0, 1])]).2 =
      [(0, .peerLeft "r1", false)] ∧
    (cleanup [0] 1 (some "r1") [("r1", [0, 1])]).1 =
      (cleanup [] 1 (some "r1") [("r1", [0, 1])]).1 := by
  have h := C7_leave_and_cleanup_effects
  have hok : RegOk [("r1", [0])] := by
    constructor
    · decide
    · intro p hp
      simp at hp
      subst hp
      exact ⟨by decide, by decide, by decide, by decide⟩
  refine ⟨(h.1 0 [("r1", [0])] "r1" [0] hok (by decide) rfl (by decide)).1,
    (h.2.1 1 0 [("r1", [0, 1])] "r1" [0, 1] (by decide) rfl (by decide)).1, ?_, ?_,
    (h.2.2.2.2 [0] [] 1 (some "r1") [("r1", [0, 1])]).1⟩
  · exact (h.2.2.2.1 [0] 1 0 [("r1", [0, 1])] "r1" [0, 1] (by decide) rfl
      (by decide)).2
  · have h4 := (h.2.2.2.1 [0] 1 0 [("r1", [0, 1])] "r1" [0, 1] (by decide) rfl
      (by decide)).1
    rw [h4]
    rfl

/-- C8: every successful join replies to the joiner with a `joined` envelope
whose peers field is the room's member count resulting from the join — 1 for
a fresh room, old count + 1 when joining an existing room as a new member, 1
again when the sole member re-joins — and this reply is the head of the send
sequence, followed by a `peer_joined` envelope to every other current member
of the room. -/
theorem C8_join_replies :
    (∀ (c : Conn) (hr : Option String) (rooms : Registry) (r : String),
      r ≠ "" → rlookup r rooms = none →
      (handleMessage c hr rooms (.join (some r))).sends = [(c, .joined r 1)] ∧
      rlookup r (handleMessage c hr rooms (.join (some r))).rooms = some [c]) ∧
    (∀ (c : Conn) (hr : Option String) (rooms : Registry) (r : String)
        (ms : List Conn),
      r ≠ "" → rlookup r rooms = some ms → ms.length < 2 → c ∉ ms →
      (handleMessage c hr rooms (.join (some r))).sends =
        (c, .joined r (ms.length + 1)) :: ms.map (fun p => (p, .peerJoined r)) ∧
      rlookup r (handleMessage c hr rooms (.join (some r))).rooms =
        some (ms ++ [c])) ∧
    (∀ (c : Conn) (hr : Option String) (rooms : Registry) (r : String),
      r ≠ "" → rlookup r rooms = some [c] →
      (handleMessage c hr rooms (.join (some r))).sends = [(c, .joined r 1)] ∧
      rlookup r (handleMessage c hr rooms (.join (some r))).rooms = some [c]) := by
  refine ⟨?_, ?_, ?_⟩
  · intro c hr rooms r hr0 hlook
    rw [join_ok_fresh hr0 hlook]
    refine ⟨rfl, ?_⟩
    show rlookup r (rooms ++ [(r, [c])]) = some [c]
    rw [rlookup_append_of_none _ hlook]
    simp [rlookup]
  · intro c hr rooms r ms hr0 hlook hcap hc
    have hadd : setAdd c ms = ms ++ [c] := by simp [setAdd, hc]
    have hfil : ms.filter (· != c) = ms := by
      simpa [setDiscard] using setDiscard_of_not_mem hc
    rw [join_ok_existing hr0 hlook hcap]
    constructor
    · simp [hadd, List.filter_append, hfil]
    · rw [rlookup_rupdate_self _ hlook, hadd]
  · intro c hr rooms r hr0 hlook
    rw [join_ok_existing hr0 hlook (by simp)]
    constructor
    · simp [setAdd]
    · rw [rlookup_rupdate_self _ hlook]
      simp [setAdd]

/-- Witness for C8: 0 creates "r1" (joined, peers 1); 1 joins the existing
"r1" (joined peers 2 first, then peer_joined to 0); the sole member 0
re-joins "r1" (joined, peers 1, no other member to notify). -/
theorem C8_join_replies_witness :
    (handleMessage 0 none [] (.join (some "r1"))).sends = [(0, .joined "r1" 1)] ∧
    rlookup "r1" (handleMessage 0 none [] (.join (some "r1"))).rooms = some [0] ∧
    (handleMessage 1 none [("r1", [0])] (.join (some "r1"))).sends =
      [(1, .joined "r1" 2), (0, .peerJoined "r1")] ∧
    rlookup "r1" (handleMessage 1 none [("r1", [0])] (.join (some "r1"))).rooms =
      some [0, 1] ∧
    (handleMessage 0 (some "r1") [("r1", [0])] (.join (some "r1"))).sends =
      [(0, .joined "r1" 1)] := by
  have h := C8_join_replies
  have h1 := h.1 0 none [] "r1" (by decide) rfl
  have h2 := h.2.1 1 none [("r1", [0])] "r1" [0] (by decide) rfl (by decide)
    (by decide)
  have h3 := h.2.2 0 (some "r1") [("r1", [0])] "r1" (by decide) rfl
  refine ⟨h1.1, h1.2, ?_, ?_, h3.1⟩
  · rw [h2.1]
    rfl
  · rw [h2.2]
    rfl

/-- C9: every error envelope sent by a loop iteration carries one of the four
exact protocol strings, is addressed to the offending connection itself, and
the iteration leaves the loop running; disconnect cleanup never sends an
error envelope. -/
theorem C9_error_envelopes :
    (∀ (c : Conn) (hr : Option String) (rooms : Registry) (m : ClientMsg)
        (q : Conn) (e : String),
      (q, ServerMsg.error e) ∈ (handleMessage c hr rooms m).sends →
      (e = "Missing room" ∨ e = "Room is full (max 2 peers)" ∨
        e = "Not in a room" ∨ e = "Missing payload") ∧ q = c ∧
      (handleMessage c hr rooms m).out = .cont) ∧
    (∀ (broken : List Conn) (c : Conn) (hr : Option String) (rooms : Registry)
        (a : Conn × ServerMsg × Bool), a ∈ (cleanup broken c hr rooms).2 →
      ∀ e, a.2.1 ≠ ServerMsg.error e) := by
  constructor
  · intro c hr rooms m q e hmem
    cases m with
    | join rf =>
      cases rf with
      | none =>
        rw [join_missing_room (show truthyStr none = false from rfl)] at hmem ⊢
        simp at hmem
        exact ⟨Or.inl hmem.2, hmem.1, rfl⟩
      | some r =>
        by_cases hr0 : r = ""
        · rw [join_missing_room (by simp [truthyStr, hr0])] at hmem ⊢
          simp at hmem
          exact ⟨Or.inl hmem.2, hmem.1, rfl⟩
        · cases hlook : rlookup r rooms with
          | none =>
            rw [join_ok_fresh hr0 hlook] at hmem
            simp at hmem
          | some ms =>
            by_cases hcap : 2 ≤ ms.length
            · rw [join_full hr0 hlook hcap] at hmem ⊢
              simp at hmem
              exact ⟨Or.inr (Or.inl hmem.2), hmem.1, rfl⟩
            · rw [join_ok_existing hr0 hlook (by omega)] at hmem
              simp at hmem
    | relay pf =>
      cases hhr : truthyStr hr with
      | false =>
        rw [relay_unset hhr] at hmem ⊢
        simp at hmem
        exact ⟨Or.inr (Or.inr (Or.inl hmem.2)), hmem.1, rfl⟩
      | true =>
        cases hr with
        | none => simp [truthyStr] at hhr
        | some r =>
          have hr0 : r ≠ "" := by simpa [truthyStr] using hhr
          cases hlook : rlookup r rooms with
          | none =>
            rw [relay_no_room hr0 hlook] at hmem ⊢
            simp at hmem
            exact ⟨Or.inr (Or.inr (Or.inl hmem.2)), hmem.1, rfl⟩
          | some ms =>
            cases hp : truthyJson pf with
            | false =>
              rw [relay_missing_payload hr0 hlook hp] at hmem ⊢
              simp at hmem
              exact ⟨Or.inr (Or.inr (Or.inr hmem.2)), hmem.1, rfl⟩
            | true =>
              rw [relay_ok hr0 hlook hp] at hmem
              simp at hmem
    | leave =>
      cases hhr : truthyStr hr with
      | false =>
        rw [leave_unset hhr] at hmem
        simp at hmem
      | true =>
        cases hr with
        | none => simp [truthyStr] at hhr
        | some r =>
          have hr0 : r ≠ "" := by simpa [truthyStr] using hhr
          cases hlook : rlookup r rooms with
          | none =>
            rw [leave_no_room hr0 hlook] at hmem
            simp at hmem
          | some ms =>
            by_cases hempty : setDiscard c ms = []
            · rw [leave_empties hr0 hlook hempty] at hmem
              simp at hmem
            · rw [leave_notifies hr0 hlook hempty] at hmem
              simp at hmem
    | other =>
      simp [handleMessage] at hmem
  · intro broken c hr rooms a hmem e
    cases hhr : truthyStr hr with
    | false =>
      rw [cleanup_unset hhr] at hmem
      simp at hmem
    | true =>
      cases hr with
      | none => simp [truthyStr] at hhr
      | some r =>
        have hr0 : r ≠ "" := by simpa [truthyStr] using hhr
        cases hlook : rlookup r rooms with
        | none =>
          rw [cleanup_no_room hr0 hlook] at hmem
          simp at hmem
        | some ms =>
          by_cases hempty : setDiscard c ms = []
          · rw [cleanup_empties hr0 hlook hempty] at hmem
            simp at hmem
          · rw [cleanup_notifies hr0 hlook hempty] at hmem
            simp only [List.mem_map] at hmem
            obtain ⟨x, _, rfl⟩ := hmem
            simp

/-- Witness for C9: 2's relay while unjoined is answered with exactly
"Not in a room", to 2, loop continuing; and the cleanup notification to 0 is
no error envelope. -/
theorem C9_error_envelopes_witness :
    (("Not in a room" = "Missing room" ∨
      "Not in a room" = "Room is full (max 2 peers)" ∨
      "Not in a room" = "Not in a room" ∨
      "Not in a room" = "Missing payload") ∧ (2 : Conn) = 2 ∧
      (handleMessage 2 none [] (.relay (some (.str "x")))).out = .cont) ∧
    (∀ e, ((0 : Conn), ServerMsg.peerLeft "r1", true).2.1 ≠ ServerMsg.error e) := by
  have h := C9_error_envelopes
  constructor
  · exact h.1 2 none [] (.relay (some (.str "x"))) 2 "Not in a room"
      (List.mem_singleton.mpr rfl)
  · exact h.2 [] 1 (some "r1") [("r1", [0, 1])] (0, .peerLeft "r1", true)
      (List.mem_singleton.mpr rfl)

/-- C10: a relay whose payload field is present but falsy in Python — the
number 0, False, the empty string, an empty object or array — is answered
with exactly "Missing payload", registry unchanged, nothing delivered, loop
continuing: the check is truthiness of the value, not field absence. -/
theorem C10_falsy_payload_rejected :
    (∀ (c : Conn) (rooms : Registry) (r : String) (ms : List Conn) (p : Json),
      r ≠ "" → rlookup r rooms = some ms → Json.truthy p = false →
      handleMessage c (some r) rooms (.relay (some p)) =
        ⟨some r, rooms, [(c, .error "Missing payload")], .cont⟩) ∧
    (Json.truthy (.num 0) = false ∧ Json.truthy (.bool false) = false ∧
      Json.truthy (.str "") = false ∧ Json.truthy (.obj []) = false ∧
      Json.truthy (.arr []) = false) := by
  constructor
  · intro c rooms r ms p hr0 hlook hp
    exact relay_missing_payload hr0 hlook (by simpa [truthyJson] using hp)
  · exact ⟨rfl, rfl, rfl, rfl, rfl⟩

/-- Witness for C10: member 0 of the full room "r1" relays the number 0 and
is answered with "Missing payload"; nothing reaches member 1. -/
theorem C10_falsy_payload_rejected_witness :
    handleMessage 0 (some "r1") [("r1", [0, 1])] (.relay (some (.num 0))) =
      ⟨some "r1", [("r1", [0, 1])], [(0, .error "Missing payload")], .cont⟩ := by
  have h := C10_falsy_payload_rejected
  exact h.1 0 [("r1", [0, 1])] "r1" [0, 1] (.num 0) (by decide) rfl rfl
